import Mathlib

set_option maxHeartbeats 1000000

/-!
A verification development for the step-registration core of a
behavior-driven-testing plugin (`pytest_bdd/steps.py`).

The Python code is shallowly embedded: Python function objects, code
objects and modules are records in an explicit heap (`State`), mutation is
state passing, and fallible operations return `Option` / `Except`.
Python object identity is modelled by heap indices (`Nat`).
-/

namespace PytestBdd

/-- Step kinds, as in `pytest_bdd.types`: GIVEN, WHEN, THEN. -/
inductive StepType where
  | GIVEN
  | WHEN
  | THEN

deriving instance DecidableEq for StepType

/-- A Python code object, restricted to the fields `contribute_to_module`
manipulates (the full Python 2 `CodeType` positional signature).
`co_consts` is kept opaque (an identifier) since the code never inspects it. -/
structure Code where
  co_argcount : Nat
  co_nlocals : Nat
  co_stacksize : Nat
  co_flags : Nat
  co_code : List Nat
  co_consts : Nat
  co_names : List String
  co_varnames : List String
  co_filename : String
  co_name : String
  co_firstlineno : Nat
  co_lnotab : List Nat
  co_freevars : List String
  co_cellvars : List String

deriving instance DecidableEq for Code

/-- The behaviour of a function object in the embedded fragment.
`user` is an opaque test-author function (identified by a tag);
`givenTrampoline fid` is `lambda request: request.getfuncargvalue(func.func_name)`
closing over the function object `fid`;
`thunk fid` is `lambda: step_func` closing over the function object `fid`;
`aliasOuter fx` is `lambda: lambda request: request.getfuncargvalue(fixture)`;
`aliasInner fx` is the inner lambda the previous one returns when called. -/
inductive Body where
  | user (u : Nat)
  | givenTrampoline (fid : Nat)
  | thunk (fid : Nat)
  | aliasOuter (fixture : String)
  | aliasInner (fixture : String)

deriving instance DecidableEq for Body

/-- A Python function object: its `__name__` / `func_name`, its `func_code`
code object, the optional `_pytestfixturefunction` marker (modelled as the
serial number of the `pytest.fixture` call that installed it), and its body. -/
structure FuncObj where
  name : String
  code : Code
  marker : Option Nat
  body : Body

deriving instance DecidableEq for FuncObj

/-- A Python module object: its `__file__` and its attribute table. -/
structure ModObj where
  file : String
  attrs : String → Option Nat

/-- The heap: function objects and modules indexed by `Nat` (object identity),
a bump allocator bound `nextF` for functions, and a serial counter for
`pytest.fixture` markers. -/
structure State where
  funcs : Nat → Option FuncObj
  nextF : Nat
  mods : Nat → Option ModObj
  nextMarker : Nat

/-- Pointwise update of a heap map. -/
def upd {α : Type} (f : Nat → Option α) (i : Nat) (v : α) : Nat → Option α :=
  fun j => if j = i then some v else f j

/-- Pointwise update of a module attribute table (`setattr`). -/
def updAttr (f : String → Option Nat) (k : String) (v : Nat) : String → Option Nat :=
  fun q => if q = k then some v else f q

/-- Allocate a fresh function object, returning its identity. -/
def allocFunc (st : State) (f : FuncObj) : State × Nat :=
  ({ st with funcs := upd st.funcs st.nextF f, nextF := st.nextF + 1 }, st.nextF)

/-- Model of `pytest.fixture(func)` applied to a plain function: installs a fresh
`_pytestfixturefunction` marker on the same object and returns it. -/
def pytest_fixture (st : State) (fid : Nat) : State :=
  match st.funcs fid with
  | some f =>
      { st with
        funcs := upd st.funcs fid { f with marker := some st.nextMarker },
        nextMarker := st.nextMarker + 1 }
  | none => st

/-- In-place assignment `obj.__name__ = nm`. -/
def renameFunc (st : State) (fid : Nat) (nm : String) : State :=
  match st.funcs fid with
  | some f => { st with funcs := upd st.funcs fid { f with name := nm } }
  | none => st

/-- Read a module attribute through the heap. -/
def moduleAttr (st : State) (mid : Nat) (k : String) : Option Nat :=
  match st.mods mid with
  | some m => m.attrs k
  | none => none

/-! ## Name Normalizer

`remove_prefix` is imported by `steps.py` from `pytest_bdd.feature`, whose
source is not part of this corpus; it is modelled from the spec. -/

/-- Whitespace, as stripped by the normalizer. -/
def isSpaceChar (c : Char) : Bool :=
  c == ' ' || c == '\t' || c == '\n' || c == '\r'

/-- ASCII lowercasing of one character (for case-insensitive keyword match). -/
def lowerChar (c : Char) : Char :=
  if 'A' ≤ c && c ≤ 'Z' then Char.ofNat (c.toNat + 32) else c

/-- Does `s` start (case-insensitively) with the keyword `kw` followed by a
whitespace character? -/
def matchesKw : List Char → List Char → Bool
  | [], [] => false
  | [], c :: _ => isSpaceChar c
  | _ :: _, [] => false
  | k :: ks, c :: cs => (lowerChar c == k) && matchesKw ks cs

/-- The recognized step keywords, in the order the spec lists them. -/
def stepKeywords : List (List Char) :=
  ["given".data, "when".data, "then".data, "and".data, "but".data]

/-- Strip leading and trailing whitespace from a character list. -/
def trimChars (l : List Char) : List Char :=
  ((l.dropWhile isSpaceChar).reverse.dropWhile isSpaceChar).reverse

/-- Modelled from the spec: the Name Normalizer `remove_prefix` (defined in
`pytest_bdd.feature`, which is outside the available sources): remove exactly
one leading recognized keyword token (case-insensitive `given` / `when` /
`then` / `and` / `but`) followed by whitespace, if present; otherwise return
the phrase unchanged (trimmed). -/
def remove_prefix (s : String) : String :=
  match stepKeywords.find? (fun kw => matchesKw kw s.data) with
  | some kw => String.mk (trimChars (s.data.drop kw.length))
  | none => String.mk (trimChars s.data)

/-! ## Namespace Contributor -/

/-- The filename of the framework's own module, used as `co_filename` of the
lambdas `steps.py` creates. -/
def stepsFilename : String := "pytest_bdd/steps.py"

/-- The code object of a lambda defined inside `steps.py`. -/
def lambdaCode (argc : Nat) : Code :=
  { co_argcount := argc
    co_nlocals := argc
    co_stacksize := 1
    co_flags := 0
    co_code := []
    co_consts := 0
    co_names := []
    co_varnames := []
    co_filename := stepsFilename
    co_name := "<lambda>"
    co_firstlineno := 0
    co_lnotab := []
    co_freevars := []
    co_cellvars := [] }

/-- A field value of a code object, as passed positionally to `CodeType`. -/
inductive FVal where
  | nat (n : Nat)
  | str (s : String)
  | strs (l : List String)
  | bytes (b : List Nat)
  | consts (c : Nat)

/-- The `argnames` list of `contribute_to_module`, in source order (which is
also the positional parameter order of the Python 2 `CodeType` constructor). -/
def codeArgnames : List String :=
  ["co_argcount", "co_nlocals", "co_stacksize", "co_flags", "co_code", "co_consts", "co_names",
   "co_varnames", "co_filename", "co_name", "co_firstlineno", "co_lnotab", "co_freevars",
   "co_cellvars"]

/-- Python `getattr(code, a)` for the fields `contribute_to_module` reads. -/
def getCodeField (c : Code) (a : String) : Option FVal :=
  if a = "co_argcount" then some (FVal.nat c.co_argcount)
  else if a = "co_nlocals" then some (FVal.nat c.co_nlocals)
  else if a = "co_stacksize" then some (FVal.nat c.co_stacksize)
  else if a = "co_flags" then some (FVal.nat c.co_flags)
  else if a = "co_code" then some (FVal.bytes c.co_code)
  else if a = "co_consts" then some (FVal.consts c.co_consts)
  else if a = "co_names" then some (FVal.strs c.co_names)
  else if a = "co_varnames" then some (FVal.strs c.co_varnames)
  else if a = "co_filename" then some (FVal.str c.co_filename)
  else if a = "co_name" then some (FVal.str c.co_name)
  else if a = "co_firstlineno" then some (FVal.nat c.co_firstlineno)
  else if a = "co_lnotab" then some (FVal.bytes c.co_lnotab)
  else if a = "co_freevars" then some (FVal.strs c.co_freevars)
  else if a = "co_cellvars" then some (FVal.strs c.co_cellvars)
  else none

/-- The loop body of `contribute_to_module`: for `co_filename` take the target
module's `__file__`, otherwise read the field off the function's code object. -/
def contribArg (m : ModObj) (f : FuncObj) (a : String) : Option FVal :=
  if a = "co_filename" then some (FVal.str m.file) else getCodeField f.code a

/-- The accumulation loop of `contribute_to_module` over `argnames`. -/
def gatherArgs (m : ModObj) (f : FuncObj) : List String → Option (List FVal)
  | [] => some []
  | a :: rest =>
      match contribArg m f a, gatherArgs m f rest with
      | some v, some vs => some (v :: vs)
      | _, _ => none

/-- Python `CodeType(*args)`: rebuild a code object from the positional field list. -/
def codeTypeOfArgs : List FVal → Option Code
  | [FVal.nat a, FVal.nat b, FVal.nat c, FVal.nat d, FVal.bytes e, FVal.consts f,
     FVal.strs g, FVal.strs h, FVal.str i, FVal.str j, FVal.nat k, FVal.bytes l,
     FVal.strs v, FVal.strs w] =>
      some ⟨a, b, c, d, e, f, g, h, i, j, k, l, v, w⟩
  | _ => none

/-- Model of `contribute_to_module(module, name, func)`: rebuild `func.func_code` with
`co_filename` replaced by `module.__file__` (all other fields copied), assign
it back to `func`, and `setattr(module, name, func)`. -/
def contribute_to_module (st : State) (mid : Nat) (name : String) (fid : Nat) : Option State :=
  match st.mods mid, st.funcs fid with
  | some m, some f =>
      match codeTypeOfArgs ((gatherArgs m f codeArgnames).getD []) with
      | some newCode =>
          some { st with
                 funcs := upd st.funcs fid { f with code := newCode },
                 mods := upd st.mods mid { m with attrs := updAttr m.attrs name fid } }
      | none => none
  | _, _ => none

/-! ## Step Registrar -/

/-- Errors the embedded fragment can raise: the module's own `StepError`
and the `ValueError` that `sys._getframe` raises on a too-shallow stack. -/
inductive PyErr where
  | stepError
  | valueError

deriving instance DecidableEq for PyErr

/-- Model of `_not_a_fixture_decorator(func)`: always raises `StepError`, whatever
function it is applied to. -/
def _not_a_fixture_decorator (_func : Nat) : Except PyErr Nat :=
  Except.error PyErr.stepError

/-- Model of `_step_decorator(step_type, step_name)`: normalizes the name and returns a
decorator closure, modelled as the pair of captured data. -/
def _step_decorator (step_type : StepType) (step_name : String) : StepType × String :=
  (step_type, remove_prefix step_name)

/-- Applying the decorator returned by `_step_decorator` to the function
object `funcId`, with the caller's module (the result of
`get_caller_module()`) passed explicitly as `callerMod`:

for GIVEN, `func` is promoted with `pytest.fixture` when it lacks the marker,
and `step_func` becomes a fresh `lambda request:
request.getfuncargvalue(func.func_name)`; for WHEN / THEN, `step_func` is
`func` itself. Then `step_func.__name__ = step_name`, and
`pytest.fixture(lambda: step_func)` is contributed to the caller's module
under `step_name`. Returns `func`. -/
def decoratorApply (step_type : StepType) (step_name : String) (callerMod : Nat)
    (st : State) (funcId : Nat) : Option (State × Nat) :=
  match st.funcs funcId with
  | none => none
  | some f0 =>
      let pr : State × Nat :=
        match step_type with
        | StepType.GIVEN =>
            let st1 := if f0.marker.isNone then pytest_fixture st funcId else st
            allocFunc st1 ⟨"<lambda>", lambdaCode 1, none, Body.givenTrampoline funcId⟩
        | _ => (st, funcId)
      let st2 := renameFunc pr.1 pr.2 step_name
      let pr2 := allocFunc st2 ⟨"<lambda>", lambdaCode 0, none, Body.thunk pr.2⟩
      let st4 := pytest_fixture pr2.1 pr2.2
      match contribute_to_module st4 callerMod step_name pr2.2 with
      | some st5 => some (st5, funcId)
      | none => none

/-- What `given(name, fixture=...)` returns: either a step decorator closure
(the captured data of `_step_decorator`) or the `_not_a_fixture_decorator`
sentinel. -/
inductive GivenRet where
  | decorator (d : StepType × String)
  | notFixture

/-- Model of `given(name, fixture=None)`. With a fixture name, it allocates
`lambda: lambda request: request.getfuncargvalue(fixture)`, passes it through
`pytest.fixture`, contributes it to the caller's module under the normalized
name, and returns the `_not_a_fixture_decorator` sentinel; otherwise it
returns `_step_decorator(GIVEN, name)`. `get_caller_module()` is passed
explicitly as `callerMod`. -/
def given (st : State) (callerMod : Nat) (name : String) (fixture : Option String) :
    Option (State × GivenRet) :=
  let n := remove_prefix name
  match fixture with
  | some fx =>
      let pr := allocFunc st ⟨"<lambda>", lambdaCode 0, none, Body.aliasOuter fx⟩
      let st2 := pytest_fixture pr.1 pr.2
      match contribute_to_module st2 callerMod n pr.2 with
      | some st3 => some (st3, GivenRet.notFixture)
      | none => none
  | none => some (st, GivenRet.decorator (_step_decorator StepType.GIVEN n))

/-- Model of `when(name) = _step_decorator(WHEN, name)`. -/
def when (name : String) : StepType × String :=
  _step_decorator StepType.WHEN name

/-- Model of `then(name) = _step_decorator(THEN, name)` (`then` is a reserved word in Lean). -/
def then' (name : String) : StepType × String :=
  _step_decorator StepType.THEN name

/-! ## Caller Scope Resolver -/

/-- A stack frame as seen by `inspect.getmodule`: the module owning it,
if any. -/
structure Frame where
  module : Option Nat

/-- Model of `sys._getframe(depth)`: the frame `depth` levels up, or `ValueError`
when the call stack is not deep enough. -/
def sys_getframe (stack : List Frame) (depth : Nat) : Except PyErr Frame :=
  match stack.get? depth with
  | some fr => Except.ok fr
  | none => Except.error PyErr.valueError

/-- Model of `get_caller_module(depth=2)`: the module of the frame at `depth`,
via `inspect.getmodule`. -/
def get_caller_module (stack : List Frame) (depth : Nat) : Except PyErr (Option Nat) :=
  match sys_getframe stack depth with
  | Except.ok fr => Except.ok fr.module
  | Except.error e => Except.error e

/-! ## Host-resolver semantics

The host resolver (pytest) is outside the core; these definitions give the
lookup semantics the spec assumes: a request scope is a map from provider
names to resolved values, `request.getfuncargvalue` is application of that
map, and resolving a step phrase means resolving the contributed fixture
(calling it with no arguments) and then calling the resulting step function
with the request, as the host step runner does. -/

/-- Calling a function object's body with zero arguments, returning the body
of the function object it evaluates to. `thunk fid` returns the closed-over
object; `aliasOuter fx` builds the inner lookup lambda. -/
def callNoArg (st : State) : Body → Option Body
  | Body.thunk fid => (st.funcs fid).map (fun f => f.body)
  | Body.aliasOuter fx => some (Body.aliasInner fx)
  | _ => none

/-- Calling a function object's body with the request. `userSem` gives the
semantics of opaque user functions; `req` is `request.getfuncargvalue`.
The given-step trampoline looks up `func.func_name` at call time, through
the heap. -/
def callWithRequest {V : Type} (st : State) (userSem : Nat → (String → Option V) → Option V)
    (req : String → Option V) : Body → Option V
  | Body.user u => userSem u req
  | Body.givenTrampoline fid =>
      match st.funcs fid with
      | some f => req f.name
      | none => none
  | Body.aliasInner fx => req fx
  | Body.thunk _ => none
  | Body.aliasOuter _ => none

/-- Resolving the step registered under `phrase` in module `mid` within one
request scope: look the phrase up in the module, resolve the contributed
fixture (zero-argument call), then call the resulting step function with the
request. -/
def resolveStepValue {V : Type} (st : State) (userSem : Nat → (String → Option V) → Option V)
    (mid : Nat) (phrase : String) (req : String → Option V) : Option V :=
  match st.mods mid with
  | none => none
  | some m =>
      match m.attrs phrase with
      | none => none
      | some pid =>
          match st.funcs pid with
          | none => none
          | some p =>
              match callNoArg st p.body with
              | none => none
              | some b => callWithRequest st userSem req b

/-! ## Concrete objects used by the witnesses -/

/-- A concrete user code object. -/
def wCode : Code :=
  { co_argcount := 1
    co_nlocals := 1
    co_stacksize := 2
    co_flags := 67
    co_code := [100, 0, 83]
    co_consts := 7
    co_names := ["create_test_article"]
    co_varnames := ["author"]
    co_filename := "tests/test_article.py"
    co_name := "article"
    co_firstlineno := 10
    co_lnotab := [0, 1]
    co_freevars := []
    co_cellvars := [] }

/-- A concrete user function object without a fixture marker. -/
def wFunc : FuncObj :=
  { name := "article", code := wCode, marker := none, body := Body.user 0 }

/-- A second concrete user function object. -/
def wFunc2 : FuncObj :=
  { name := "article2", code := wCode, marker := none, body := Body.user 1 }

/-- A concrete user function object that already carries a fixture marker. -/
def wFuncMarked : FuncObj :=
  { name := "article", code := wCode, marker := some 41, body := Body.user 0 }

/-- A concrete test module with an empty attribute table. -/
def wMod : ModObj :=
  { file := "tests/test_article.py", attrs := fun _ => none }

/-- A concrete heap: `wFunc` at 0, `wFunc2` at 1, `wMod` at 0. -/
def wState : State :=
  { funcs := fun i => if i = 0 then some wFunc else if i = 1 then some wFunc2 else none
    nextF := 2
    mods := fun i => if i = 0 then some wMod else none
    nextMarker := 50 }

/-- A concrete heap whose function 0 is already marked. -/
def wStateMarked : State :=
  { funcs := fun i => if i = 0 then some wFuncMarked else none
    nextF := 1
    mods := fun i => if i = 0 then some wMod else none
    nextMarker := 50 }

/-- The thunk object contributed to the module, after `pytest.fixture` and
`contribute_to_module` have processed it. -/
def contributedThunk (m : ModObj) (mk : Nat) (sf : Nat) : FuncObj :=
  { name := "<lambda>", code := { lambdaCode 0 with co_filename := m.file },
    marker := some mk, body := Body.thunk sf }

/-- The alias provider object contributed by `given(name, fixture=fx)`, after
`pytest.fixture` and `contribute_to_module` have processed it. -/
def contributedAlias (m : ModObj) (mk : Nat) (fx : String) : FuncObj :=
  { name := "<lambda>", code := { lambdaCode 0 with co_filename := m.file },
    marker := some mk, body := Body.aliasOuter fx }

/-! ## Theorems -/

example : (if ("a" : String) = "b" then 1 else 2) = 2 := by simp

theorem upd_self {α : Type} (f : Nat → Option α) (i : Nat) (v : α) : upd f i v i = some v := by
  simp [upd]

theorem upd_ne {α : Type} (f : Nat → Option α) (i j : Nat) (v : α) (h : j ≠ i) :
    upd f i v j = f j := by
  simp [upd, h]

theorem updAttr_self (f : String → Option Nat) (k : String) (v : Nat) :
    updAttr f k v k = some v := by
  simp [updAttr]

theorem updAttr_ne (f : String → Option Nat) (k q : String) (v : Nat) (h : q ≠ k) :
    updAttr f k v q = f q := by
  simp [updAttr, h]

theorem contribute_to_module_eq (st : State) (mid : Nat) (nm : String) (fid : Nat)
    (m : ModObj) (f : FuncObj) (hm : st.mods mid = some m) (hf : st.funcs fid = some f) :
    contribute_to_module st mid nm fid =
      some { st with
             funcs := upd st.funcs fid { f with code := { f.code with co_filename := m.file } },
             mods := upd st.mods mid { m with attrs := updAttr m.attrs nm fid } } := by
  unfold contribute_to_module
  rw [hm, hf]
  rfl

theorem decoratorApply_notGiven (k : StepType) (hk : k ≠ StepType.GIVEN)
    (nm : String) (mid fid : Nat) (st : State) (f0 : FuncObj) (m : ModObj)
    (hf : st.funcs fid = some f0) (hm : st.mods mid = some m) (hfid : fid < st.nextF) :
    ∃ st', decoratorApply k nm mid st fid = some (st', fid)
      ∧ st'.funcs fid = some { f0 with name := nm }
      ∧ st'.funcs st.nextF = some (contributedThunk m st.nextMarker fid)
      ∧ st'.mods mid = some { m with attrs := updAttr m.attrs nm st.nextF }
      ∧ (∀ j, j ≠ fid → j ≠ st.nextF → st'.funcs j = st.funcs j)
      ∧ (∀ j, j ≠ mid → st'.mods j = st.mods j)
      ∧ st'.nextF = st.nextF + 1
      ∧ st'.nextMarker = st.nextMarker + 1 := by
  have hne : fid ≠ st.nextF := Nat.ne_of_lt hfid
  have hrun : decoratorApply k nm mid st fid =
      some ({ funcs := upd (upd (upd (upd st.funcs fid { f0 with name := nm }) st.nextF
                    ⟨"<lambda>", lambdaCode 0, none, Body.thunk fid⟩) st.nextF
                    ⟨"<lambda>", lambdaCode 0, some st.nextMarker, Body.thunk fid⟩) st.nextF
                    (contributedThunk m st.nextMarker fid),
              nextF := st.nextF + 1,
              mods := upd st.mods mid { m with attrs := updAttr m.attrs nm st.nextF },
              nextMarker := st.nextMarker + 1 }, fid) := by
    cases k with
    | GIVEN => exact absurd rfl hk
    | WHEN =>
        unfold decoratorApply
        rw [hf]
        simp only [renameFunc, allocFunc, pytest_fixture, hf, upd_self]
        rw [contribute_to_module_eq _ _ _ _ m ⟨"<lambda>", lambdaCode 0, some st.nextMarker, Body.thunk fid⟩ ?hm1 ?hf1]
        case hm1 => exact hm
        case hf1 => exact upd_self _ _ _
        rfl
    | THEN =>
        unfold decoratorApply
        rw [hf]
        simp only [renameFunc, allocFunc, pytest_fixture, hf, upd_self]
        rw [contribute_to_module_eq _ _ _ _ m ⟨"<lambda>", lambdaCode 0, some st.nextMarker, Body.thunk fid⟩ ?hm2 ?hf2]
        case hm2 => exact hm
        case hf2 => exact upd_self _ _ _
        rfl
  refine ⟨_, hrun, ?_, ?_, ?_, ?_, ?_, rfl, rfl⟩
  · simp [upd, hne]
  · simp [upd]
  · simp [upd]
  · intro j hj1 hj2
    simp [upd, hj1, hj2]
  · intro j hj
    simp [upd, hj]



theorem decoratorApply_given_unmarked
    (nm : String) (mid fid : Nat) (st : State) (f0 : FuncObj) (m : ModObj)
    (hf : st.funcs fid = some f0) (hmk : f0.marker = none)
    (hm : st.mods mid = some m) (hfid : fid < st.nextF) :
    ∃ st', decoratorApply StepType.GIVEN nm mid st fid = some (st', fid)
      ∧ st'.funcs fid = some { f0 with marker := some st.nextMarker }
      ∧ st'.funcs st.nextF =
          some ⟨nm, lambdaCode 1, none, Body.givenTrampoline fid⟩
      ∧ st'.funcs (st.nextF + 1) =
          some (contributedThunk m (st.nextMarker + 1) st.nextF)
      ∧ st'.mods mid = some { m with attrs := updAttr m.attrs nm (st.nextF + 1) }
      ∧ (∀ j, j ≠ fid → j ≠ st.nextF → j ≠ st.nextF + 1 → st'.funcs j = st.funcs j)
      ∧ (∀ j, j ≠ mid → st'.mods j = st.mods j)
      ∧ st'.nextF = st.nextF + 2
      ∧ st'.nextMarker = st.nextMarker + 2 := by
  have hne : fid ≠ st.nextF := Nat.ne_of_lt hfid
  have hne2 : fid ≠ st.nextF + 1 := by omega
  have hne3 : st.nextF ≠ st.nextF + 1 := by omega
  have hrun : decoratorApply StepType.GIVEN nm mid st fid =
      some ({ funcs :=
                upd (upd (upd (upd (upd (upd st.funcs fid { f0 with marker := some st.nextMarker })
                  st.nextF ⟨"<lambda>", lambdaCode 1, none, Body.givenTrampoline fid⟩)
                  st.nextF ⟨nm, lambdaCode 1, none, Body.givenTrampoline fid⟩)
                  (st.nextF + 1) ⟨"<lambda>", lambdaCode 0, none, Body.thunk st.nextF⟩)
                  (st.nextF + 1) ⟨"<lambda>", lambdaCode 0, some (st.nextMarker + 1), Body.thunk st.nextF⟩)
                  (st.nextF + 1) (contributedThunk m (st.nextMarker + 1) st.nextF),
              nextF := st.nextF + 2,
              mods := upd st.mods mid { m with attrs := updAttr m.attrs nm (st.nextF + 1) },
              nextMarker := st.nextMarker + 2 }, fid) := by
    unfold decoratorApply
    rw [hf]
    simp only [hmk, Option.isNone_none, if_true, pytest_fixture, renameFunc, allocFunc, hf,
      upd_self]
    rw [contribute_to_module_eq _ _ _ _ m
      ⟨"<lambda>", lambdaCode 0, some (st.nextMarker + 1), Body.thunk st.nextF⟩ ?hm1 ?hf1]
    case hm1 => exact hm
    case hf1 => exact upd_self _ _ _
    rfl
  refine ⟨_, hrun, ?_, ?_, ?_, ?_, ?_, ?_, rfl, rfl⟩
  · simp [upd, hne, hne2]
  · simp [upd, hne3]
  · simp [upd]
  · simp [upd]
  · intro j hj1 hj2 hj3
    simp [upd, hj1, hj2, hj3]
  · intro j hj
    simp [upd, hj]

theorem decoratorApply_given_marked
    (nm : String) (mid fid : Nat) (st : State) (f0 : FuncObj) (m : ModObj) (mk : Nat)
    (hf : st.funcs fid = some f0) (hmk : f0.marker = some mk)
    (hm : st.mods mid = some m) (hfid : fid < st.nextF) :
    ∃ st', decoratorApply StepType.GIVEN nm mid st fid = some (st', fid)
      ∧ st'.funcs fid = some f0
      ∧ st'.funcs st.nextF =
          some ⟨nm, lambdaCode 1, none, Body.givenTrampoline fid⟩
      ∧ st'.funcs (st.nextF + 1) =
          some (contributedThunk m st.nextMarker st.nextF)
      ∧ st'.mods mid = some { m with attrs := updAttr m.attrs nm (st.nextF + 1) }
      ∧ (∀ j, j ≠ fid → j ≠ st.nextF → j ≠ st.nextF + 1 → st'.funcs j = st.funcs j)
      ∧ (∀ j, j ≠ mid → st'.mods j = st.mods j)
      ∧ st'.nextF = st.nextF + 2
      ∧ st'.nextMarker = st.nextMarker + 1 := by
  have hne : fid ≠ st.nextF := Nat.ne_of_lt hfid
  have hne2 : fid ≠ st.nextF + 1 := by omega
  have hne3 : st.nextF ≠ st.nextF + 1 := by omega
  have hrun : decoratorApply StepType.GIVEN nm mid st fid =
      some ({ funcs :=
                upd (upd (upd (upd (upd st.funcs
                  st.nextF ⟨"<lambda>", lambdaCode 1, none, Body.givenTrampoline fid⟩)
                  st.nextF ⟨nm, lambdaCode 1, none, Body.givenTrampoline fid⟩)
                  (st.nextF + 1) ⟨"<lambda>", lambdaCode 0, none, Body.thunk st.nextF⟩)
                  (st.nextF + 1) ⟨"<lambda>", lambdaCode 0, some st.nextMarker, Body.thunk st.nextF⟩)
                  (st.nextF + 1) (contributedThunk m st.nextMarker st.nextF),
              nextF := st.nextF + 2,
              mods := upd st.mods mid { m with attrs := updAttr m.attrs nm (st.nextF + 1) },
              nextMarker := st.nextMarker + 1 }, fid) := by
    unfold decoratorApply
    rw [hf]
    simp only [hmk, Option.isNone_some, if_false, Bool.false_eq_true, renameFunc, allocFunc,
      pytest_fixture, upd_self]
    rw [contribute_to_module_eq _ _ _ _ m
      ⟨"<lambda>", lambdaCode 0, some st.nextMarker, Body.thunk st.nextF⟩ ?hm1 ?hf1]
    case hm1 => exact hm
    case hf1 => exact upd_self _ _ _
    rfl
  refine ⟨_, hrun, ?_, ?_, ?_, ?_, ?_, ?_, rfl, rfl⟩
  · simp [upd, hne, hne2, hf]
  · simp [upd, hne3]
  · simp [upd]
  · simp [upd]
  · intro j hj1 hj2 hj3
    simp [upd, hj1, hj2, hj3]
  · intro j hj
    simp [upd, hj]




theorem given_fixture_char (st : State) (mid : Nat) (name fx : String) (m : ModObj)
    (hm : st.mods mid = some m) :
    ∃ st', given st mid name (some fx) = some (st', GivenRet.notFixture)
      ∧ st'.funcs st.nextF = some (contributedAlias m st.nextMarker fx)
      ∧ st'.mods mid =
          some { m with attrs := updAttr m.attrs ( remove_prefix name) st.nextF }
      ∧ (∀ j, j ≠ st.nextF → st'.funcs j = st.funcs j)
      ∧ (∀ j, j ≠ mid → st'.mods j = st.mods j)
      ∧ st'.nextF = st.nextF + 1
      ∧ st'.nextMarker = st.nextMarker + 1 := by
  have hrun : given st mid name (some fx) =
      some ({ funcs :=
                upd (upd (upd st.funcs
                  st.nextF ⟨"<lambda>", lambdaCode 0, none, Body.aliasOuter fx⟩)
                  st.nextF ⟨"<lambda>", lambdaCode 0, some st.nextMarker, Body.aliasOuter fx⟩)
                  st.nextF (contributedAlias m st.nextMarker fx),
              nextF := st.nextF + 1,
              mods := upd st.mods mid
                { m with attrs := updAttr m.attrs ( remove_prefix name) st.nextF },
              nextMarker := st.nextMarker + 1 }, GivenRet.notFixture) := by
    unfold given
    simp only [allocFunc, pytest_fixture, upd_self]
    rw [contribute_to_module_eq _ _ _ _ m
      ⟨"<lambda>", lambdaCode 0, some st.nextMarker, Body.aliasOuter fx⟩ ?hm1 ?hf1]
    case hm1 => exact hm
    case hf1 => exact upd_self _ _ _
    rfl
  refine ⟨_, hrun, ?_, ?_, ?_, ?_, rfl, rfl⟩
  · simp [upd]
  · simp [upd]
  · intro j hj
    simp [upd, hj]
  · intro j hj
    simp [upd, hj]

theorem dropWhile_idem (p : Char → Bool) (l : List Char) :
    List.dropWhile p (List.dropWhile p l) = List.dropWhile p l := by
  induction l with
  | nil => rfl
  | cons c cs ih =>
      by_cases h : p c
      · rw [List.dropWhile_cons_of_pos h]
        exact ih
      · rw [List.dropWhile_cons_of_neg h, List.dropWhile_cons_of_neg h]

/-- Decomposition: a list is its right-trim followed by its trailing spaces. -/
theorem trimR_decomp (p : Char → Bool) (x : List Char) :
    x = (List.dropWhile p x.reverse).reverse ++ (List.takeWhile p x.reverse).reverse := by
  have h := List.takeWhile_append_dropWhile p x.reverse
  have h2 := congrArg List.reverse h
  rw [List.reverse_append, List.reverse_reverse] at h2
  exact h2.symm

/-- A left-trimmed list stays left-trimmed after right-trimming. -/
theorem dropWhile_trimR (p : Char → Bool) (l : List Char) :
    List.dropWhile p (List.dropWhile p (List.dropWhile p l).reverse).reverse =
      (List.dropWhile p (List.dropWhile p l).reverse).reverse := by
  set x := List.dropWhile p l with hx
  have hself : List.dropWhile p x = x := dropWhile_idem p l
  cases htr : (List.dropWhile p x.reverse).reverse with
  | nil => rfl
  | cons c cs =>
      have hdec := trimR_decomp p x
      rw [htr] at hdec
      have hc : ¬ p c = true := by
        have := List.dropWhile_eq_self_iff.mp hself
        rw [hdec] at this
        simpa using this (by simp)
      exact List.dropWhile_cons_of_neg hc

theorem trimChars_idem (l : List Char) : trimChars (trimChars l) = trimChars l := by
  unfold trimChars
  rw [dropWhile_trimR isSpaceChar l, List.reverse_reverse,
    dropWhile_idem isSpaceChar ((List.dropWhile isSpaceChar l).reverse)]


theorem matchesKw_head_eq (k : Char) (ks : List Char) (c : Char) (cs : List Char)
    (h : matchesKw (k :: ks) (c :: cs) = true) : lowerChar c = k := by
  have h2 : ((lowerChar c == k) && matchesKw ks cs) = true := h
  exact beq_iff_eq.mp ((Bool.and_eq_true _ _).mp h2).1

theorem matchesKw_nonempty (k : Char) (ks : List Char) (s : List Char)
    (h : matchesKw (k :: ks) s = true) : ∃ c cs, s = c :: cs := by
  cases s with
  | nil => exact absurd h (by simp [matchesKw])
  | cons c cs => exact ⟨c, cs, rfl⟩

theorem stepKeywords_find?_eq (kw : List Char) (hkw : kw ∈ stepKeywords) (s : List Char)
    (h : matchesKw kw s = true) :
    stepKeywords.find? (fun k => matchesKw k s) = some kw := by
  have hmem : kw = "given".data ∨ kw = "when".data ∨ kw = "then".data ∨ kw = "and".data ∨
      kw = "but".data := by simpa [stepKeywords] using hkw
  rcases hmem with h1 | h1 | h1 | h1 | h1 <;> subst h1 <;>
    obtain ⟨c, cs, hs⟩ := matchesKw_nonempty _ _ s (by exact h) <;> subst hs
  · exact List.find?_cons_of_pos _ h
  · have hc : lowerChar c = 'w' := matchesKw_head_eq _ _ _ _ h
    rw [show stepKeywords = "given".data :: ["when".data, "then".data, "and".data, "but".data]
      from rfl]
    rw [List.find?_cons_of_neg _ ?g1]
    case g1 => intro hcon; exact absurd (matchesKw_head_eq _ _ _ _ hcon) (by rw [hc]; decide)
    exact List.find?_cons_of_pos _ h
  · have hc : lowerChar c = 't' := matchesKw_head_eq _ _ _ _ h
    rw [show stepKeywords = "given".data :: "when".data :: ["then".data, "and".data, "but".data]
      from rfl]
    rw [List.find?_cons_of_neg _ ?g1]
    case g1 => intro hcon; exact absurd (matchesKw_head_eq _ _ _ _ hcon) (by rw [hc]; decide)
    rw [List.find?_cons_of_neg _ ?g2]
    case g2 => intro hcon; exact absurd (matchesKw_head_eq _ _ _ _ hcon) (by rw [hc]; decide)
    exact List.find?_cons_of_pos _ h
  · have hc : lowerChar c = 'a' := matchesKw_head_eq _ _ _ _ h
    rw [show stepKeywords =
      "given".data :: "when".data :: "then".data :: ["and".data, "but".data] from rfl]
    rw [List.find?_cons_of_neg _ ?g1]
    case g1 => intro hcon; exact absurd (matchesKw_head_eq _ _ _ _ hcon) (by rw [hc]; decide)
    rw [List.find?_cons_of_neg _ ?g2]
    case g2 => intro hcon; exact absurd (matchesKw_head_eq _ _ _ _ hcon) (by rw [hc]; decide)
    rw [List.find?_cons_of_neg _ ?g3]
    case g3 => intro hcon; exact absurd (matchesKw_head_eq _ _ _ _ hcon) (by rw [hc]; decide)
    exact List.find?_cons_of_pos _ h
  · have hc : lowerChar c = 'b' := matchesKw_head_eq _ _ _ _ h
    rw [show stepKeywords =
      "given".data :: "when".data :: "then".data :: "and".data :: ["but".data] from rfl]
    rw [List.find?_cons_of_neg _ ?g1]
    case g1 => intro hcon; exact absurd (matchesKw_head_eq _ _ _ _ hcon) (by rw [hc]; decide)
    rw [List.find?_cons_of_neg _ ?g2]
    case g2 => intro hcon; exact absurd (matchesKw_head_eq _ _ _ _ hcon) (by rw [hc]; decide)
    rw [List.find?_cons_of_neg _ ?g3]
    case g3 => intro hcon; exact absurd (matchesKw_head_eq _ _ _ _ hcon) (by rw [hc]; decide)
    rw [List.find?_cons_of_neg _ ?g4]
    case g4 => intro hcon; exact absurd (matchesKw_head_eq _ _ _ _ hcon) (by rw [hc]; decide)
    exact List.find?_cons_of_pos _ h

theorem remove_prefix_of_match (s : String) (kw : List Char) (hkw : kw ∈ stepKeywords)
    (h : matchesKw kw s.data = true) :
    remove_prefix s = String.mk (trimChars (s.data.drop kw.length)) := by
  unfold remove_prefix
  rw [stepKeywords_find?_eq kw hkw s.data h]

theorem remove_prefix_of_nomatch (s : String)
    (h : ∀ kw ∈ stepKeywords, matchesKw kw s.data = false) :
    remove_prefix s = String.mk (trimChars s.data) := by
  unfold remove_prefix
  rw [List.find?_eq_none.mpr (by intro kw hkw; simp [h kw hkw])]

theorem remove_prefix_data (s : String) : ∃ l, remove_prefix s = String.mk (trimChars l) := by
  unfold remove_prefix
  cases stepKeywords.find? (fun k => matchesKw k s.data) with
  | none => exact ⟨s.data, rfl⟩
  | some kw => exact ⟨s.data.drop kw.length, rfl⟩

theorem remove_prefix_idem_of_nomatch (s : String)
    (h : ∀ kw ∈ stepKeywords, matchesKw kw ( remove_prefix s).data = false) :
    remove_prefix ( remove_prefix s) = remove_prefix s := by
  obtain ⟨l, hl⟩ := remove_prefix_data s
  rw [remove_prefix_of_nomatch _ h, hl]
  show String.mk (trimChars (trimChars l)) = String.mk (trimChars l)
  rw [trimChars_idem]

/-- GIVEN registration characterized uniformly over the marker state. -/
theorem decoratorApply_given_char (nm : String) (mid fid : Nat) (st : State)
    (f0 : FuncObj) (m : ModObj)
    (hf : st.funcs fid = some f0) (hm : st.mods mid = some m) (hfid : fid < st.nextF) :
    ∃ st', decoratorApply StepType.GIVEN nm mid st fid = some (st', fid)
      ∧ (∃ f1, st'.funcs fid = some f1 ∧ f1.name = f0.name ∧ f1.code = f0.code
          ∧ f1.body = f0.body)
      ∧ st'.funcs st.nextF = some ⟨nm, lambdaCode 1, none, Body.givenTrampoline fid⟩
      ∧ (∃ mk2, st'.funcs (st.nextF + 1) = some (contributedThunk m mk2 st.nextF))
      ∧ st'.mods mid = some { m with attrs := updAttr m.attrs nm (st.nextF + 1) }
      ∧ (∀ j, j ≠ fid → j ≠ st.nextF → j ≠ st.nextF + 1 → st'.funcs j = st.funcs j)
      ∧ (∀ j, j ≠ mid → st'.mods j = st.mods j)
      ∧ st'.nextF = st.nextF + 2 := by
  cases hmk : f0.marker with
  | none =>
      obtain ⟨st', hrun, h1, h2, h3, h4, h5, h6, h7, h8⟩ :=
        decoratorApply_given_unmarked nm mid fid st f0 m hf hmk hm hfid
      exact ⟨st', hrun, ⟨_, h1, rfl, rfl, rfl⟩, h2, ⟨_, h3⟩, h4, h5, h6, h7⟩
  | some mk =>
      obtain ⟨st', hrun, h1, h2, h3, h4, h5, h6, h7, h8⟩ :=
        decoratorApply_given_marked nm mid fid st f0 m mk hf hmk hm hfid
      exact ⟨st', hrun, ⟨_, h1, rfl, rfl, rfl⟩, h2, ⟨_, h3⟩, h4, h5, h6, h7⟩

/-- Any registration succeeds, returns the same function object, and leaves a
state in which the same function and module are still addressable. -/
theorem decoratorApply_progress (k : StepType) (nm : String) (mid fid : Nat) (st : State)
    (f0 : FuncObj) (m : ModObj)
    (hf : st.funcs fid = some f0) (hm : st.mods mid = some m) (hfid : fid < st.nextF) :
    ∃ st' f1 m1, decoratorApply k nm mid st fid = some (st', fid)
      ∧ st'.funcs fid = some f1 ∧ st'.mods mid = some m1 ∧ fid < st'.nextF := by
  cases hk : k with
  | GIVEN =>
      obtain ⟨st', hrun, ⟨f1, hf1, _, _, _⟩, _, _, hmod, _, _, hnf⟩ :=
        decoratorApply_given_char nm mid fid st f0 m hf hm hfid
      exact ⟨st', f1, _, hrun, hf1, hmod, by omega⟩
  | WHEN =>
      obtain ⟨st', hrun, hf1, _, hmod, _, _, hnf, _⟩ :=
        decoratorApply_notGiven StepType.WHEN (by simp) nm mid fid st f0 m hf hm hfid
      exact ⟨st', _, _, hrun, hf1, hmod, by omega⟩
  | THEN =>
      obtain ⟨st', hrun, hf1, _, hmod, _, _, hnf, _⟩ :=
        decoratorApply_notGiven StepType.THEN (by simp) nm mid fid st f0 m hf hm hfid
      exact ⟨st', _, _, hrun, hf1, hmod, by omega⟩

/-- C2: after `contribute_to_module(m, n, f)`, the attribute `n` of `m` is `f`,
`f`'s code object's `co_filename` equals `m.__file__`, and every other code
object field is unchanged. -/
theorem claim_C2 (st : State) (mid fid : Nat) (nm : String) (m : ModObj) (f : FuncObj)
    (hm : st.mods mid = some m) (hf : st.funcs fid = some f) :
    ∃ st' f', contribute_to_module st mid nm fid = some st'
      ∧ moduleAttr st' mid nm = some fid
      ∧ st'.funcs fid = some f'
      ∧ f'.name = f.name
      ∧ f'.code.co_filename = m.file
      ∧ f'.code.co_argcount = f.code.co_argcount
      ∧ f'.code.co_nlocals = f.code.co_nlocals
      ∧ f'.code.co_stacksize = f.code.co_stacksize
      ∧ f'.code.co_flags = f.code.co_flags
      ∧ f'.code.co_code = f.code.co_code
      ∧ f'.code.co_consts = f.code.co_consts
      ∧ f'.code.co_names = f.code.co_names
      ∧ f'.code.co_varnames = f.code.co_varnames
      ∧ f'.code.co_name = f.code.co_name
      ∧ f'.code.co_firstlineno = f.code.co_firstlineno
      ∧ f'.code.co_lnotab = f.code.co_lnotab
      ∧ f'.code.co_freevars = f.code.co_freevars
      ∧ f'.code.co_cellvars = f.code.co_cellvars := by
  refine ⟨_, { f with code := { f.code with co_filename := m.file } },
    contribute_to_module_eq st mid nm fid m f hm hf, ?_, ?_,
    rfl, rfl, rfl, rfl, rfl, rfl, rfl, rfl, rfl, rfl, rfl, rfl, rfl, rfl, rfl⟩
  · simp [moduleAttr, upd, updAttr]
  · simp [upd]

/-- C2 witness at a concrete module, name and function. -/
theorem claim_C2_witness :
    ∃ st' f', contribute_to_module wState 0 "I have an article" 0 = some st'
      ∧ moduleAttr st' 0 "I have an article" = some 0
      ∧ st'.funcs 0 = some f'
      ∧ f'.name = wFunc.name
      ∧ f'.code.co_filename = wMod.file
      ∧ f'.code.co_argcount = wFunc.code.co_argcount
      ∧ f'.code.co_nlocals = wFunc.code.co_nlocals
      ∧ f'.code.co_stacksize = wFunc.code.co_stacksize
      ∧ f'.code.co_flags = wFunc.code.co_flags
      ∧ f'.code.co_code = wFunc.code.co_code
      ∧ f'.code.co_consts = wFunc.code.co_consts
      ∧ f'.code.co_names = wFunc.code.co_names
      ∧ f'.code.co_varnames = wFunc.code.co_varnames
      ∧ f'.code.co_name = wFunc.code.co_name
      ∧ f'.code.co_firstlineno = wFunc.code.co_firstlineno
      ∧ f'.code.co_lnotab = wFunc.code.co_lnotab
      ∧ f'.code.co_freevars = wFunc.code.co_freevars
      ∧ f'.code.co_cellvars = wFunc.code.co_cellvars :=
  claim_C2 wState 0 0 "I have an article" wMod wFunc rfl rfl

/-- C3: `given(phrase, fixture=name)` with a non-None fixture returns the
sentinel, and the sentinel raises `StepError` on every function it is applied
to — it never returns normally. -/
theorem claim_C3 (st : State) (mid : Nat) (phrase fx : String) (m : ModObj)
    (hm : st.mods mid = some m) :
    ∃ st', given st mid phrase (some fx) = some (st', GivenRet.notFixture)
      ∧ ∀ g : Nat, _not_a_fixture_decorator g = Except.error PyErr.stepError := by
  obtain ⟨st', hrun, _⟩ := given_fixture_char st mid phrase fx m hm
  exact ⟨st', hrun, fun g => rfl⟩

/-- C3 witness at a concrete state and phrase. -/
theorem claim_C3_witness :
    ∃ st', given wState 0 "I have a beautiful article" (some "article") =
        some (st', GivenRet.notFixture)
      ∧ ∀ g : Nat, _not_a_fixture_decorator g = Except.error PyErr.stepError :=
  claim_C3 wState 0 "I have a beautiful article" "article" wMod rfl

/-- C8: when the call stack is shallower than the requested depth,
`get_caller_module` surfaces the error (the `ValueError` raised by
`sys._getframe`); it never returns a fallback namespace. -/
theorem claim_C8 (stack : List Frame) (depth : Nat) (h : stack.length ≤ depth) :
    get_caller_module stack depth = Except.error PyErr.valueError := by
  unfold get_caller_module sys_getframe
  rw [List.get?_eq_none.mpr h]

/-- C8 witness: the default depth 2 from an empty stack. -/
theorem claim_C8_witness : get_caller_module [] 2 = Except.error PyErr.valueError :=
  claim_C8 [] 2 (by decide)

/-- C9: the alias form installs, under the normalized phrase in the caller's
module, a marked zero-argument provider whose resolution performs the named
lookup of the fixture, so resolving the alias phrase within one request scope
yields exactly the value of resolving the fixture name. -/
theorem claim_C9 (st : State) (mid : Nat) (phrase fx : String) (m : ModObj)
    (hm : st.mods mid = some m) :
    ∃ st' pid p, given st mid phrase (some fx) = some (st', GivenRet.notFixture)
      ∧ moduleAttr st' mid ( remove_prefix phrase) = some pid
      ∧ st'.funcs pid = some p
      ∧ p.body = Body.aliasOuter fx
      ∧ p.marker.isSome = true
      ∧ ∀ (V : Type) (us : Nat → (String → Option V) → Option V) (req : String → Option V),
          resolveStepValue st' us mid ( remove_prefix phrase) req = req fx := by
  obtain ⟨st', hrun, hfu, hmod, _, _, _, _⟩ := given_fixture_char st mid phrase fx m hm
  refine ⟨st', st.nextF, _, hrun, ?_, hfu, rfl, rfl, ?_⟩
  · simp [moduleAttr, hmod, updAttr]
  · intro V us req
    simp [resolveStepValue, hmod, updAttr, hfu, contributedAlias, callNoArg, callWithRequest]

/-- C9 witness at a concrete state, phrase, fixture name and request scope. -/
theorem claim_C9_witness :
    ∃ st' pid p, given wState 0 "I have a beautiful article" (some "article") =
        some (st', GivenRet.notFixture)
      ∧ moduleAttr st' 0 ( remove_prefix "I have a beautiful article") = some pid
      ∧ st'.funcs pid = some p
      ∧ p.body = Body.aliasOuter "article"
      ∧ p.marker.isSome = true
      ∧ ∀ (V : Type) (us : Nat → (String → Option V) → Option V) (req : String → Option V),
          resolveStepValue st' us 0 ( remove_prefix "I have a beautiful article") req =
            req "article" :=
  claim_C9 wState 0 "I have a beautiful article" "article" wMod rfl

/-- C1: for every registered function, the installed trampoline is, for GIVEN,
a fresh one-argument function whose application to a request performs the
request-scoped named lookup of the function's own name, and, for WHEN / THEN,
the function object itself (run directly, its body unchanged). -/
theorem claim_C1 (k : StepType) (nm : String) (mid fid : Nat) (st : State)
    (f0 : FuncObj) (m : ModObj)
    (hf : st.funcs fid = some f0) (hm : st.mods mid = some m) (hfid : fid < st.nextF) :
    ∃ st' tid t, decoratorApply k nm mid st fid = some (st', fid)
      ∧ moduleAttr st' mid nm = some tid
      ∧ st'.funcs tid = some t
      ∧ (k = StepType.GIVEN →
           ∃ sf sfObj, t.body = Body.thunk sf
             ∧ st'.funcs sf = some sfObj
             ∧ sfObj.body = Body.givenTrampoline fid
             ∧ ∀ (V : Type) (us : Nat → (String → Option V) → Option V)
                 (req : String → Option V),
                 callWithRequest st' us req sfObj.body = req f0.name)
      ∧ (k ≠ StepType.GIVEN →
           t.body = Body.thunk fid
             ∧ ∃ fObj, st'.funcs fid = some fObj ∧ fObj.body = f0.body) := by
  cases k with
  | GIVEN =>
      obtain ⟨st', hrun, ⟨f1, hf1, hn1, _, _⟩, hsf, ⟨mk2, htid⟩, hmod, _, _, _⟩ :=
        decoratorApply_given_char nm mid fid st f0 m hf hm hfid
      refine ⟨st', st.nextF + 1, _, hrun, ?_, htid, fun _ => ?_, fun hne => absurd rfl hne⟩
      · simp [moduleAttr, hmod, updAttr]
      · refine ⟨st.nextF, _, rfl, hsf, rfl, fun V us req => ?_⟩
        simp [callWithRequest, hf1, hn1]
  | WHEN =>
      obtain ⟨st', hrun, hf1, htid, hmod, _, _, _, _⟩ :=
        decoratorApply_notGiven StepType.WHEN (by simp) nm mid fid st f0 m hf hm hfid
      refine ⟨st', st.nextF, _, hrun, ?_, htid, ?_, ?_⟩
      · simp [moduleAttr, hmod, updAttr]
      · intro hk
        exact absurd hk (by decide)
      · intro _
        exact ⟨rfl, _, hf1, rfl⟩
  | THEN =>
      obtain ⟨st', hrun, hf1, htid, hmod, _, _, _, _⟩ :=
        decoratorApply_notGiven StepType.THEN (by simp) nm mid fid st f0 m hf hm hfid
      refine ⟨st', st.nextF, _, hrun, ?_, htid, ?_, ?_⟩
      · simp [moduleAttr, hmod, updAttr]
      · intro hk
        exact absurd hk (by decide)
      · intro _
        exact ⟨rfl, _, hf1, rfl⟩

/-- C1 witness: a GIVEN registration on a concrete state. -/
theorem claim_C1_witness :
    ∃ st' tid t, decoratorApply StepType.GIVEN "I have an article" 0 wState 0 =
        some (st', 0)
      ∧ moduleAttr st' 0 "I have an article" = some tid
      ∧ st'.funcs tid = some t
      ∧ (StepType.GIVEN = StepType.GIVEN →
           ∃ sf sfObj, t.body = Body.thunk sf
             ∧ st'.funcs sf = some sfObj
             ∧ sfObj.body = Body.givenTrampoline 0
             ∧ ∀ (V : Type) (us : Nat → (String → Option V) → Option V)
                 (req : String → Option V),
                 callWithRequest st' us req sfObj.body = req wFunc.name)
      ∧ (StepType.GIVEN ≠ StepType.GIVEN →
           t.body = Body.thunk 0
             ∧ ∃ fObj, st'.funcs 0 = some fObj ∧ fObj.body = wFunc.body) :=
  claim_C1 StepType.GIVEN "I have an article" 0 0 wState wFunc wMod rfl rfl (by decide)

/-- C6: GIVEN registration promotes the function only when the marker is
absent: an already-marked function is reused completely unchanged, an
unmarked one receives the fresh marker, and repeating GIVEN registration
applies the promotion at most once (the first marker survives the second
registration untouched). -/
theorem claim_C6 (nm nm2 : String) (mid fid : Nat) (st : State)
    (f0 : FuncObj) (m : ModObj)
    (hf : st.funcs fid = some f0) (hm : st.mods mid = some m) (hfid : fid < st.nextF) :
    (∀ mk, f0.marker = some mk →
        ∃ st', decoratorApply StepType.GIVEN nm mid st fid = some (st', fid)
          ∧ st'.funcs fid = some f0)
  ∧ (f0.marker = none →
        ∃ st', decoratorApply StepType.GIVEN nm mid st fid = some (st', fid)
          ∧ st'.funcs fid = some { f0 with marker := some st.nextMarker })
  ∧ (f0.marker = none →
        ∃ st' st2, decoratorApply StepType.GIVEN nm mid st fid = some (st', fid)
          ∧ decoratorApply StepType.GIVEN nm2 mid st' fid = some (st2, fid)
          ∧ st2.funcs fid = some { f0 with marker := some st.nextMarker }) := by
  refine ⟨fun mk hmk => ?_, fun hmk => ?_, fun hmk => ?_⟩
  · obtain ⟨st', hrun, h1, _⟩ :=
      decoratorApply_given_marked nm mid fid st f0 m mk hf hmk hm hfid
    exact ⟨st', hrun, h1⟩
  · obtain ⟨st', hrun, h1, _⟩ :=
      decoratorApply_given_unmarked nm mid fid st f0 m hf hmk hm hfid
    exact ⟨st', hrun, h1⟩
  · obtain ⟨st', hrun, h1, _, _, hmod, _, _, hnf, _⟩ :=
      decoratorApply_given_unmarked nm mid fid st f0 m hf hmk hm hfid
    obtain ⟨st2, hrun2, h21, _⟩ :=
      decoratorApply_given_marked nm2 mid fid st' { f0 with marker := some st.nextMarker }
        _ st.nextMarker h1 rfl hmod (by omega)
    exact ⟨st', st2, hrun, hrun2, h21⟩

/-- C6 witness: an already-marked function, an unmarked one, and a repeated
GIVEN registration, on concrete states. -/
theorem claim_C6_witness :
    (∀ mk, wFuncMarked.marker = some mk →
        ∃ st', decoratorApply StepType.GIVEN "I have an article" 0 wStateMarked 0 =
            some (st', 0)
          ∧ st'.funcs 0 = some wFuncMarked)
  ∧ (wFuncMarked.marker = none →
        ∃ st', decoratorApply StepType.GIVEN "I have an article" 0 wStateMarked 0 =
            some (st', 0)
          ∧ st'.funcs 0 = some { wFuncMarked with marker := some wStateMarked.nextMarker })
  ∧ (wFuncMarked.marker = none →
        ∃ st' st2, decoratorApply StepType.GIVEN "I have an article" 0 wStateMarked 0 =
            some (st', 0)
          ∧ decoratorApply StepType.GIVEN "there is an article" 0 st' 0 = some (st2, 0)
          ∧ st2.funcs 0 =
              some { wFuncMarked with marker := some wStateMarked.nextMarker }) :=
  claim_C6 "I have an article" "there is an article" 0 0 wStateMarked wFuncMarked wMod
    rfl rfl (by decide)

/-- C7: the decorator returns the function object it was given, and a second
stacked registration on the result again receives and returns that same
object. -/
theorem claim_C7 (k k2 : StepType) (nm nm2 : String) (mid fid : Nat) (st : State)
    (f0 : FuncObj) (m : ModObj)
    (hf : st.funcs fid = some f0) (hm : st.mods mid = some m) (hfid : fid < st.nextF) :
    ∃ st', decoratorApply k nm mid st fid = some (st', fid)
      ∧ ∃ st2, decoratorApply k2 nm2 mid st' fid = some (st2, fid) := by
  obtain ⟨st', f1, m1, hrun, hf1, hm1, hlt⟩ :=
    decoratorApply_progress k nm mid fid st f0 m hf hm hfid
  obtain ⟨st2, f2, m2, hrun2, _, _, _⟩ :=
    decoratorApply_progress k2 nm2 mid fid st' f1 m1 hf1 hm1 hlt
  exact ⟨st', hrun, st2, hrun2⟩

/-- C7 witness: two stacked GIVEN phrases on one concrete function. -/
theorem claim_C7_witness :
    ∃ st', decoratorApply StepType.GIVEN "I have an article" 0 wState 0 = some (st', 0)
      ∧ ∃ st2, decoratorApply StepType.GIVEN "there is an article" 0 st' 0 =
          some (st2, 0) :=
  claim_C7 StepType.GIVEN StepType.GIVEN "I have an article" "there is an article" 0 0
    wState wFunc wMod rfl rfl (by decide)

/-- C5: registering the same (kind, phrase) twice with two different functions
raises no error and silently replaces the binding: afterwards the module
attribute under the phrase holds the provider built from the second function
(a different provider object than the first registration installed). -/
theorem claim_C5 (k : StepType) (nm : String) (mid fid1 fid2 : Nat) (st : State)
    (f1 f2 : FuncObj) (m : ModObj)
    (hf1 : st.funcs fid1 = some f1) (hf2 : st.funcs fid2 = some f2)
    (hne : fid2 ≠ fid1) (hm : st.mods mid = some m)
    (hlt1 : fid1 < st.nextF) (hlt2 : fid2 < st.nextF) :
    ∃ st1 st2 tid1 tid2, decoratorApply k nm mid st fid1 = some (st1, fid1)
      ∧ decoratorApply k nm mid st1 fid2 = some (st2, fid2)
      ∧ moduleAttr st1 mid nm = some tid1
      ∧ moduleAttr st2 mid nm = some tid2
      ∧ tid2 ≠ tid1
      ∧ ∃ t, st2.funcs tid2 = some t
      ∧ (k = StepType.GIVEN →
           ∃ sf sfObj, t.body = Body.thunk sf ∧ st2.funcs sf = some sfObj
             ∧ sfObj.body = Body.givenTrampoline fid2)
      ∧ (k ≠ StepType.GIVEN → t.body = Body.thunk fid2) := by
  cases k with
  | GIVEN =>
      obtain ⟨st1, hrun1, _, _, _, hmod1, hfr1, _, hnf1⟩ :=
        decoratorApply_given_char nm mid fid1 st f1 m hf1 hm hlt1
      have hf2' : st1.funcs fid2 = some f2 := by
        rw [hfr1 fid2 hne (by omega) (by omega)]
        exact hf2
      obtain ⟨st2, hrun2, _, hsf2, ⟨mk2, htid2⟩, hmod2, _, _, _⟩ :=
        decoratorApply_given_char nm mid fid2 st1 f2 _ hf2' hmod1 (by omega)
      refine ⟨st1, st2, st.nextF + 1, st1.nextF + 1, hrun1, hrun2, ?_, ?_,
        by omega, _, htid2, ?_, ?_⟩
      · simp [moduleAttr, hmod1, updAttr]
      · simp [moduleAttr, hmod2, updAttr]
      · intro _
        exact ⟨st1.nextF, _, rfl, hsf2, rfl⟩
      · intro hk
        exact absurd rfl hk
  | WHEN =>
      obtain ⟨st1, hrun1, _, _, hmod1, hfr1, _, hnf1, _⟩ :=
        decoratorApply_notGiven StepType.WHEN (by decide) nm mid fid1 st f1 m hf1 hm hlt1
      have hf2' : st1.funcs fid2 = some f2 := by
        rw [hfr1 fid2 hne (by omega)]
        exact hf2
      obtain ⟨st2, hrun2, _, htid2, hmod2, _, _, _, _⟩ :=
        decoratorApply_notGiven StepType.WHEN (by decide) nm mid fid2 st1 f2 _ hf2'
          hmod1 (by omega)
      refine ⟨st1, st2, st.nextF, st1.nextF, hrun1, hrun2, ?_, ?_, by omega, _, htid2,
        ?_, fun _ => rfl⟩
      · simp [moduleAttr, hmod1, updAttr]
      · simp [moduleAttr, hmod2, updAttr]
      · intro hk
        exact absurd hk (by decide)
  | THEN =>
      obtain ⟨st1, hrun1, _, _, hmod1, hfr1, _, hnf1, _⟩ :=
        decoratorApply_notGiven StepType.THEN (by decide) nm mid fid1 st f1 m hf1 hm hlt1
      have hf2' : st1.funcs fid2 = some f2 := by
        rw [hfr1 fid2 hne (by omega)]
        exact hf2
      obtain ⟨st2, hrun2, _, htid2, hmod2, _, _, _, _⟩ :=
        decoratorApply_notGiven StepType.THEN (by decide) nm mid fid2 st1 f2 _ hf2'
          hmod1 (by omega)
      refine ⟨st1, st2, st.nextF, st1.nextF, hrun1, hrun2, ?_, ?_, by omega, _, htid2,
        ?_, fun _ => rfl⟩
      · simp [moduleAttr, hmod1, updAttr]
      · simp [moduleAttr, hmod2, updAttr]
      · intro hk
        exact absurd hk (by decide)

/-- C5 witness: re-registering one WHEN phrase with two concrete functions. -/
theorem claim_C5_witness :
    ∃ st1 st2 tid1 tid2, decoratorApply StepType.WHEN "i go" 0 wState 0 = some (st1, 0)
      ∧ decoratorApply StepType.WHEN "i go" 0 st1 1 = some (st2, 1)
      ∧ moduleAttr st1 0 "i go" = some tid1
      ∧ moduleAttr st2 0 "i go" = some tid2
      ∧ tid2 ≠ tid1
      ∧ ∃ t, st2.funcs tid2 = some t
      ∧ (StepType.WHEN = StepType.GIVEN →
           ∃ sf sfObj, t.body = Body.thunk sf ∧ st2.funcs sf = some sfObj
             ∧ sfObj.body = Body.givenTrampoline 1)
      ∧ (StepType.WHEN ≠ StepType.GIVEN → t.body = Body.thunk 1) :=
  claim_C5 StepType.WHEN "i go" 0 0 1 wState wFunc wFunc2 wMod rfl rfl (by decide) rfl
    (by decide) (by decide)

/-- C10: a WHEN or THEN registration mutates the decorated function in place,
setting its `__name__` to the normalized phrase; a GIVEN registration leaves
the original function's name untouched and instead names the generated
trampoline lambda after the phrase. -/
theorem claim_C10 (phrase : String) (mid fid : Nat) (st : State)
    (f0 : FuncObj) (m : ModObj)
    (hf : st.funcs fid = some f0) (hm : st.mods mid = some m) (hfid : fid < st.nextF) :
    (∃ st', decoratorApply ( when phrase).1 ( when phrase).2 mid st fid = some (st', fid)
        ∧ st'.funcs fid = some { f0 with name := remove_prefix phrase })
  ∧ (∃ st', decoratorApply (then' phrase).1 (then' phrase).2 mid st fid = some (st', fid)
        ∧ st'.funcs fid = some { f0 with name := remove_prefix phrase })
  ∧ (∀ nm, ∃ st' f1 sfObj,
        decoratorApply StepType.GIVEN nm mid st fid = some (st', fid)
        ∧ st'.funcs fid = some f1 ∧ f1.name = f0.name
        ∧ st'.funcs st.nextF = some sfObj ∧ sfObj.name = nm
        ∧ sfObj.body = Body.givenTrampoline fid) := by
  refine ⟨?_, ?_, ?_⟩
  · obtain ⟨st', hrun, hf1, _⟩ :=
      decoratorApply_notGiven StepType.WHEN (by decide) ( remove_prefix phrase) mid fid st
        f0 m hf hm hfid
    exact ⟨st', hrun, hf1⟩
  · obtain ⟨st', hrun, hf1, _⟩ :=
      decoratorApply_notGiven StepType.THEN (by decide) ( remove_prefix phrase) mid fid st
        f0 m hf hm hfid
    exact ⟨st', hrun, hf1⟩
  · intro nm
    obtain ⟨st', hrun, ⟨g1, hg1, hgn, _, _⟩, hsf, _, _, _, _, _⟩ :=
      decoratorApply_given_char nm mid fid st f0 m hf hm hfid
    exact ⟨st', g1, _, hrun, hg1, hgn, hsf, rfl, rfl⟩

/-- C10 witness at a concrete state and phrase. -/
theorem claim_C10_witness :
    (∃ st', decoratorApply ( when "when I go").1 ( when "when I go").2 0 wState 0 =
          some (st', 0)
        ∧ st'.funcs 0 = some { wFunc with name := remove_prefix "when I go" })
  ∧ (∃ st', decoratorApply ( then' "when I go").1 ( then' "when I go").2 0 wState 0 =
          some (st', 0)
        ∧ st'.funcs 0 = some { wFunc with name := remove_prefix "when I go" })
  ∧ (∀ nm, ∃ st' f1 sfObj,
        decoratorApply StepType.GIVEN nm 0 wState 0 = some (st', 0)
        ∧ st'.funcs 0 = some f1 ∧ f1.name = wFunc.name
        ∧ st'.funcs wState.nextF = some sfObj ∧ sfObj.name = nm
        ∧ sfObj.body = Body.givenTrampoline 0) :=
  claim_C10 "when I go" 0 0 wState wFunc wMod rfl rfl (by decide)

/-- C4 (amended): the normalizer removes exactly one leading recognized
keyword (case-insensitively) together with the surrounding whitespace when one
is present; it returns the phrase unchanged (trimmed) when none is present;
and it is idempotent on every phrase whose normalized form does not itself
start with a recognized keyword followed by whitespace (full idempotence
fails, see the counterexample). -/
theorem claim_C4_amended :
    (∀ (s : String) (kw : List Char), kw ∈ stepKeywords → matchesKw kw s.data = true →
        remove_prefix s = String.mk (trimChars (s.data.drop kw.length)))
  ∧ (∀ s : String, (∀ kw ∈ stepKeywords, matchesKw kw s.data = false) →
        remove_prefix s = String.mk (trimChars s.data))
  ∧ (∀ s : String, (∀ kw ∈ stepKeywords, matchesKw kw ( remove_prefix s).data = false) →
        remove_prefix ( remove_prefix s) = remove_prefix s) :=
  ⟨fun s kw hkw h => remove_prefix_of_match s kw hkw h,
   fun s h => remove_prefix_of_nomatch s h,
   fun s h => remove_prefix_idem_of_nomatch s h⟩

/-- C4 counterexample: the normalizer is not idempotent on every phrase —
normalizing "given when x" yields "when x", which normalizes again to "x". -/
theorem claim_C4_counterexample :
    ¬ remove_prefix ( remove_prefix "given when x") = remove_prefix "given when x" := by
  decide

/-- C4 witness: a keyword-stripping case, a no-keyword case, and an
idempotence case, each at a concrete phrase. -/
theorem claim_C4_witness :
    remove_prefix "Given I have an article" =
        String.mk (trimChars ("Given I have an article".data.drop 5))
  ∧ remove_prefix "no keyword here" = String.mk (trimChars "no keyword here".data)
  ∧ remove_prefix ( remove_prefix "Given I have an article") =
        remove_prefix "Given I have an article" :=
  ⟨claim_C4_amended.1 "Given I have an article" "given".data (by decide) (by decide),
   claim_C4_amended.2.1 "no keyword here" (by decide),
   claim_C4_amended.2.2 "Given I have an article" (by decide)⟩

end PytestBdd
